import Mathlib

set_option maxRecDepth 10000

/-!
Verification development for a crypto-exchange connector: a Gate REST
request signer (gate.api.ts, gate.types.ts) and a Blofin public
websocket session (blofin.ws-public.ts).  The definitions below are a
shallow embedding of those source files; prices and amounts are
embedded as rationals, JavaScript objects as association lists, and
the hash primitives as function parameters.
-/

/-! ## Order book data model -/

/-- An order book level as produced by the websocket handler: price,
amount and cumulative total.  The source snapshot entries omit the
total field (it is recomputed before every delivery); the embedding
carries 0 there. -/
structure OrderBookOrders where
  price : ℚ
  amount : ℚ
  total : ℚ
deriving DecidableEq, Repr

/-- The two sides of an order book, as in the source object
with bids and asks arrays. -/
structure OrderBook where
  bids : List OrderBookOrders
  asks : List OrderBookOrders
deriving DecidableEq, Repr

/-- Modelled from the spec: the safe-math multiply helper
(utils/safe-math is not part of the given sources).  The spec calls
the precision factor a multiplier converting exchange-native contract
units into normalized quantity units, so it is exact rational
multiplication. -/
def multiply (a b : ℚ) : ℚ := a * b

/-- Embedding of the snapshot branch of the books handler: the reduce
over one side's raw (price, amount) entries that drops zero-amount
entries and converts the amount by the market's amount-precision
factor. -/
def snapshotSide (precision : ℚ) (raw : List (ℚ × ℚ)) : List OrderBookOrders :=
  raw.foldl
    (fun acc e => if e.2 = 0 then acc else acc ++ [⟨e.1, multiply e.2 precision, 0⟩]) []

/-- Replace the element at an index, leaving the list unchanged when
the index is out of range (embedding of an indexed assignment into a
JavaScript array). -/
def modifyAt (f : OrderBookOrders → OrderBookOrders) : Nat → List OrderBookOrders → List OrderBookOrders
  | _, [] => []
  | 0, x :: xs => f x :: xs
  | Nat.succ n, x :: xs => x :: modifyAt f n xs

/-- Embedding of the update branch of the books handler for one side.
The source iterates the raw pairs with a for-of loop inside a
sides.forEach callback; the two return statements inside that loop
(after a splice and after a push) exit the callback, so processing of
the remaining pairs of the side stops there.  The embedding reproduces
this: the delete case and the insert case return the book without
recursing on the rest of the pairs; the in-place amount replacement
and the zero-amount-no-match case continue. -/
def applyUpdateSide (precision : ℚ) : List OrderBookOrders → List (ℚ × ℚ) → List OrderBookOrders
  | book, [] => book
  | book, (price, amount) :: rest =>
    match book.findIdx? (fun b => decide (b.price = price)) with
    | some i =>
      if amount = 0 then
        book.eraseIdx i
      else
        applyUpdateSide precision
          (modifyAt (fun b => ⟨b.price, multiply amount precision, b.total⟩) i book) rest
    | none =>
      if amount = 0 then
        applyUpdateSide precision book rest
      else
        book ++ [⟨price, multiply amount precision, 0⟩]

/-- A books-channel message: either a snapshot or an incremental
update, each carrying raw (price, amount) pairs per side. -/
inductive BookMessage where
  | snapshot (bids asks : List (ℚ × ℚ))
  | update (bids asks : List (ℚ × ℚ))
deriving DecidableEq, Repr

/-- Merge one inbound message into the in-memory book, as the books
handler does before filtering and sorting. -/
def mergeMessage (precision : ℚ) (ob : OrderBook) : BookMessage → OrderBook
  | .snapshot bids asks => ⟨snapshotSide precision bids, snapshotSide precision asks⟩
  | .update bids asks =>
      ⟨applyUpdateSide precision ob.bids bids, applyUpdateSide precision ob.asks asks⟩

/-- Embedding of the expression that reads the ticker's last price,
which yields 0 when the ticker is unknown and also when its last price
is 0 (JavaScript or-with-zero). -/
def lastPriceOf : Option ℚ → ℚ
  | some l => if l = 0 then 0 else l
  | none => 0

/-- Embedding of the post-merge stale-quote filter from the source:
asks keep levels with price at least the last price, bids keep levels
with price at most the last price. -/
def staleFilter (lastPrice : ℚ) (ob : OrderBook) : OrderBook :=
  ⟨ob.bids.filter (fun b => decide (b.price ≤ lastPrice)),
   ob.asks.filter (fun a => decide (lastPrice ≤ a.price))⟩

/-- Insertion step for an insertion sort over order book levels with a
boolean comparator. -/
def insertLevel (le : OrderBookOrders → OrderBookOrders → Bool) (x : OrderBookOrders) :
    List OrderBookOrders → List OrderBookOrders
  | [] => [x]
  | y :: ys => if le x y then x :: y :: ys else y :: insertLevel le x ys

/-- Insertion sort over order book levels with a boolean comparator. -/
def sortLevels (le : OrderBookOrders → OrderBookOrders → Bool) (l : List OrderBookOrders) :
    List OrderBookOrders :=
  l.foldr (insertLevel le) []

/-- Modelled from the spec: the sortOrderBook helper
(utils/orderbook is not part of the given sources).  The spec says to
sort bids descending by price and asks ascending by price. -/
def sortOrderBook (ob : OrderBook) : OrderBook :=
  ⟨sortLevels (fun a b => decide (b.price ≤ a.price)) ob.bids,
   sortLevels (fun a b => decide (a.price ≤ b.price)) ob.asks⟩

/-- Running-sum pass over one (already sorted, best price first) side,
replacing each total with the cumulative amount. -/
def calcTotals (acc : ℚ) : List OrderBookOrders → List OrderBookOrders
  | [] => []
  | x :: xs => ⟨x.price, x.amount, acc + x.amount⟩ :: calcTotals (acc + x.amount) xs

/-- Modelled from the spec: the calcOrderBookTotal helper
(utils/orderbook is not part of the given sources).  The spec says to
recompute the cumulative total per side as the running sum of amounts
from the best price outward. -/
def calcOrderBookTotal (ob : OrderBook) : OrderBook :=
  ⟨calcTotals 0 ob.bids, calcTotals 0 ob.asks⟩

/-- The full per-message pipeline of the books handler: merge the
message, apply the stale-quote filter with the last known ticker
price, sort both sides, recompute totals.  The result is the book
passed to the consumer callback. -/
def deliveredBook (precision : ℚ) (tickerLast : Option ℚ) (ob : OrderBook)
    (msg : BookMessage) : OrderBook :=
  calcOrderBookTotal (sortOrderBook (staleFilter (lastPriceOf tickerLast)
    (mergeMessage precision ob msg)))

/-! ## REST signing (gate.api.ts / gate.types.ts) -/

/-- The default receive window constant from gate.types.ts. -/
def RECV_WINDOW : Nat := 5000

/-- The public endpoints list from gate.types.ts: markets, tickers and
kline paths. -/
def PUBLIC_ENDPOINTS : List String :=
  ["/futures/usdt/contracts", "/futures/usdt/tickers", "/futures/usdt/candlesticks"]

/-- Livenet base URL from gate.types.ts. -/
def BASE_URL_livenet : String := "https://api.gateio.ws/api/v4"

/-- Testnet base URL from gate.types.ts. -/
def BASE_URL_testnet : String := "https://fx-api-testnet.gateio.ws/api/v4"

/-- The exchange options record as used by gate.api.ts: credentials,
environment switches and the optional receive window under extra.
Credentials are embedded as optional so that their absence is
representable. -/
structure ExchangeOptions where
  key : Option String
  secret : Option String
  testnet : Bool
  corsAnywhere : Option String
  recvWindow : Option Nat
deriving DecidableEq, Repr

/-- A request configuration as seen by the interceptor: optional url
path, optional method, optional string-valued params, optional
JSON-serialized body text, optional timeout and a header list whose
values are optional (a JavaScript object property can hold an
undefined value). -/
structure RequestConfig where
  url : Option String
  method : Option String
  params : Option (List (String × String))
  data : Option String
  timeout : Option Nat
  headers : List (String × Option String)
deriving DecidableEq, Repr

/-- Embedding of Array.prototype.join: concatenate the parts with the
separator between consecutive elements. -/
def joinSep (sep : String) : List String → String
  | [] => ""
  | [x] => x
  | x :: y :: xs => x ++ sep ++ joinSep sep (y :: xs)

/-- Embedding of decodeURIComponent composed with qs.stringify on
string-valued params: qs.stringify percent-encodes each key and value
and joins them as key=value pairs with ampersands, preserving the
params' own key order (it does not sort keys by default), and
decodeURIComponent undoes exactly the percent-encoding, so the
composite is the plain ampersand-joined key=value list in insertion
order. -/
def urlDecodedQueryString : Option (List (String × String)) → String
  | none => ""
  | some ps => joinSep "&" (ps.map (fun kv => kv.1 ++ "=" ++ kv.2))

/-- Embedding of the startsWith test used by the interceptor: the
candidate prefix's characters form an initial segment of the string's
characters. -/
def strStartsWith (s pre : String) : Bool := pre.data.isPrefixOf s.data

/-- Embedding of toUpperCase: uppercase the string character by
character. -/
def toUpperStr (s : String) : String := String.mk (s.data.map Char.toUpper)

/-- Failure of the signing step at request time: createHmac with a
missing key value throws in the underlying runtime. -/
inductive SignError where
  | missingSecret
deriving DecidableEq, Repr

/-- Embedding of the request interceptor installed by createAPI in
gate.api.ts.  Public endpoint prefixes bypass signing and return the
configuration unchanged.  Otherwise the canonical string is the
uppercased method, the path prefixed with /api/v4, the url-decoded
query string, the hex sha512 of the body text (empty string when there
is no body) and the unix-seconds timestamp, joined by newlines; the
headers gain KEY, SIGN (hex hmac-sha512 of the canonical string under
the secret) and Timestamp, and the timeout becomes the configured
receive window or the default.  The hash primitives are passed in as
functions.  A missing secret surfaces here, at signing time. -/
def requestInterceptor (sha512hex : String → String)
    (hmacSha512hex : String → String → String) (opts : ExchangeOptions)
    (ts : Nat) (cfg : RequestConfig) : Except SignError RequestConfig :=
  if PUBLIC_ENDPOINTS.any (fun s => strStartsWith (cfg.url.getD "") s) then
    Except.ok cfg
  else
    let url := "/api/v4" ++ cfg.url.getD ""
    let methodUp := toUpperStr (cfg.method.getD "")
    let method := if methodUp = "" then "GET" else methodUp
    let params := urlDecodedQueryString cfg.params
    let dataHash := sha512hex (cfg.data.getD "")
    let toSign := joinSep "\n" [method, url, params, dataHash, toString ts]
    match opts.secret with
    | none => Except.error SignError.missingSecret
    | some sec =>
      Except.ok
        { cfg with
          headers := cfg.headers ++
            [("KEY", opts.key),
             ("SIGN", some (hmacSha512hex sec toSign)),
             ("Timestamp", some (toString ts))],
          timeout := some (opts.recvWindow.getD RECV_WINDOW) }

/-- The canonical string as the specification describes it, written
independently of the interceptor: METHOD, /api/v4 plus the path, the
query string, the body hash and the timestamp, joined by newlines.
The query-string argument is supplied by the caller, which is where
the sorted-versus-insertion-order question lives. -/
def specCanonicalString (sha512hex : String → String) (method path query : String)
    (body : Option String) (ts : Nat) : String :=
  joinSep "\n" [method, "/api/v4" ++ path, query, sha512hex (body.getD ""), toString ts]

/-- Lexicographic comparison of character lists by code point,
embedding of the string ordering used to express the claim's sorted
key order. -/
def charListLt : List Char → List Char → Bool
  | [], [] => false
  | [], _ :: _ => true
  | _ :: _, [] => false
  | a :: as, b :: bs =>
    if a.toNat < b.toNat then true
    else if b.toNat < a.toNat then false
    else charListLt as bs

/-- String comparison by code points, used to express the claim's
sorted key order. -/
def strLt (a b : String) : Bool := charListLt a.data b.data

/-- Insertion step for sorting params by key, used to express the
claim's sorted query string. -/
def insertParamByKey (kv : String × String) :
    List (String × String) → List (String × String)
  | [] => [kv]
  | y :: ys => if strLt kv.1 y.1 then kv :: y :: ys else y :: insertParamByKey kv ys

/-- Sort params by key (insertion sort), used to express the claim's
sorted query string. -/
def sortParamsByKey (ps : List (String × String)) : List (String × String) :=
  ps.foldr insertParamByKey []

/-- The query string as the claim states it: key-sorted key=value
pairs joined by ampersands.  Written from the claim's words, for
comparison with the source's insertion-order construction. -/
def sortedQueryString (ps : List (String × String)) : String :=
  joinSep "&" ((sortParamsByKey ps).map (fun kv => kv.1 ++ "=" ++ kv.2))

/-- A concrete stand-in for hex sha512, injective by construction,
used to instantiate the hash parameter on concrete inputs. -/
def shaT (s : String) : String := "sha[" ++ s ++ "]"

/-- A concrete stand-in for hex hmac-sha512, injective by
construction, used to instantiate the hmac parameter on concrete
inputs. -/
def hmacT (sec msg : String) : String := "hmac[" ++ sec ++ "|" ++ msg ++ "]"

/-- Concrete params with keys out of sorted order. -/
def cexParams : List (String × String) := [("b", "1"), ("a", "2")]

/-- A concrete non-public request configuration carrying cexParams. -/
def cexCfg : RequestConfig :=
  ⟨some "/futures/usdt/orders", some "get", some cexParams, none, none, []⟩

/-- Concrete options with both credentials present. -/
def cexOpts : ExchangeOptions := ⟨some "k", some "s3", false, none, none⟩

/-- Configuration error the claim expects construction to raise. -/
inductive ConfigError where
  | missingCredentials
deriving DecidableEq, Repr

/-- The value createAPI builds: an http client with a base URL and a
network-retry bound. -/
structure APIClient where
  baseURL : String
  retries : Nat
deriving DecidableEq, Repr

/-- Embedding of the createAPI construction in gate.api.ts: pick the
environment base URL, optionally prefix the cors proxy, create the
client with the retry policy and install the interceptor.  The source
performs no credential validation and has no failure path, so the
result is always ok; the Except codomain records that construction
could in principle fail and does not. -/
def createAPI (opts : ExchangeOptions) : Except ConfigError APIClient :=
  let apiUrl := if opts.testnet then BASE_URL_testnet else BASE_URL_livenet
  let base :=
    match opts.corsAnywhere with
    | some cors => cors ++ "/" ++ apiUrl
    | none => apiUrl
  Except.ok ⟨base, 3⟩

/-! ## Websocket session bookkeeping (blofin.ws-public.ts) -/

/-- Look up the value stored under a key in an association list
(embedding of reading a JavaScript object property). -/
def getKey {α : Type} (k : String) : List (String × α) → Option α
  | [] => none
  | (k2, v) :: rest => if k2 = k then some v else getKey k rest

/-- Store a value under a key in an association list, replacing an
existing binding in place or appending a new one (embedding of a
JavaScript object property assignment). -/
def setKey {α : Type} (k : String) (v : α) : List (String × α) → List (String × α)
  | [] => [(k, v)]
  | (k2, v2) :: rest => if k2 = k then (k, v) :: rest else (k2, v2) :: setKey k v rest

/-- Remove the binding of a key from an association list (embedding of
the JavaScript delete operator). -/
def eraseKey {α : Type} (k : String) : List (String × α) → List (String × α)
  | [] => []
  | (k2, v2) :: rest => if k2 = k then rest else (k2, v2) :: eraseKey k rest

/-- Number of bindings of a key in an association list. -/
def countKey {α : Type} (k : String) (l : List (String × α)) : Nat :=
  (l.filter (fun kv => kv.1 = k)).length

/-- Keys are pairwise distinct, the standing invariant of JavaScript
objects. -/
def keysNodup {α : Type} (l : List (String × α)) : Prop :=
  (l.map Prod.fst).Nodup

/-- The observable bookkeeping of one websocket session: the message
handler table (handler identities abstracted to numbers), the
resubscription ledger mapping topic keys to serialized topics, and the
frames sent on the socket in order, each an operation name with the
serialized topic. -/
structure WsSession where
  handlers : List (String × Nat)
  topics : List (String × String)
  frames : List (String × String)
deriving DecidableEq, Repr

/-- A session with nothing registered and nothing sent. -/
def initSession : WsSession := ⟨[], [], []⟩

/-- Serialization of the candle topic for an interval and instrument,
standing in for the JSON string the source uses as both handler key
and ledger key. -/
def candleTopic (interval instId : String) : String :=
  "candle" ++ interval ++ "|" ++ instId

/-- Embedding of the subscribe path of listenOHLCV once markets are
loaded and the socket is connected: register the handler under the
topic string, send a subscribe frame for the topic, record the topic
in the ledger under the topic string.  No unsubscribe of any prior
topic happens here. -/
def subscribeOHLCV (interval instId : String) (h : Nat) (s : WsSession) : WsSession :=
  ⟨setKey (candleTopic interval instId) h s.handlers,
   setKey (candleTopic interval instId) (candleTopic interval instId) s.topics,
   s.frames ++ [("subscribe", candleTopic interval instId)]⟩

/-- Embedding of the teardown returned by listenOHLCV: delete the
handler and ledger entries for its own topic and send an unsubscribe
frame for it. -/
def teardownOHLCV (interval instId : String) (s : WsSession) : WsSession :=
  ⟨eraseKey (candleTopic interval instId) s.handlers,
   eraseKey (candleTopic interval instId) s.topics,
   s.frames ++ [("unsubscribe", candleTopic interval instId)]⟩

/-- Serialization of the books topic for an instrument. -/
def booksTopic (instId : String) : String := "books|" ++ instId

/-- Embedding of the subscribe path of listenOrderBook once markets
are loaded and the socket is connected: the handler is registered
under the fixed key books, a subscribe frame is sent, and the ledger
entry is recorded under the fixed key orderBook, regardless of the
symbol. -/
def subscribeOrderBook (instId : String) (h : Nat) (s : WsSession) : WsSession :=
  ⟨setKey "books" h s.handlers,
   setKey "orderBook" (booksTopic instId) s.topics,
   s.frames ++ [("subscribe", booksTopic instId)]⟩

/-- Embedding of the teardown returned by listenOrderBook: delete the
fixed books handler key and the fixed orderBook ledger key and send an
unsubscribe frame for its own topic. -/
def teardownOrderBook (instId : String) (s : WsSession) : WsSession :=
  ⟨eraseKey "books" s.handlers,
   eraseKey "orderBook" s.topics,
   s.frames ++ [("unsubscribe", booksTopic instId)]⟩

/-! ## Deferred-readiness polling (markets-not-loaded branch)

Both listenOHLCV and listenOrderBook, when called before market
metadata has loaded, arm a retry timer that re-invokes the listen
function and return a teardown that clears the timer variable of the
original invocation.  The re-invocation is a fresh call with a fresh
local timer variable and a fresh teardown that is discarded, so the
caller's teardown can only ever cancel the first timer.  The model
below numbers the retry timers 0, 1, 2, ... and replays an event
sequence against that behaviour. -/

/-- Events of the deferred-readiness poll: the pending retry timer
fires, the caller invokes the returned teardown, or market metadata
finishes loading. -/
inductive PollEvent where
  | timerFires
  | teardown
  | marketsLoad
deriving DecidableEq, Repr

/-- State of the deferred-readiness poll: whether markets have loaded,
the index of the pending retry timer if one is armed, and whether the
re-invoked listen call has registered its message handler and ledger
entry (after which the consumer callback can fire on inbound
messages). -/
structure PollState where
  marketsLoaded : Bool
  pending : Option Nat
  handlerRegistered : Bool
  ledgerEntry : Bool
deriving DecidableEq, Repr

/-- Initial poll state: the first listen call found markets unloaded
and armed retry timer 0. -/
def pollInit : PollState := ⟨false, some 0, false, false⟩

/-- One step of the poll model.  A firing timer re-invokes the listen
function: if markets have loaded it registers the handler and ledger
entry (the subscribe path), otherwise it arms the next retry timer.
The caller's teardown clears only timer 0, the one whose identifier
the original invocation captured; a later pending timer belongs to a
re-invocation whose own teardown was discarded, so it stays armed.
Teardown of an already cleared or fired timer is a no-op. -/
def pollStep (s : PollState) : PollEvent → PollState
  | .timerFires =>
    match s.pending with
    | none => s
    | some i =>
      if s.marketsLoaded then
        { s with pending := none, handlerRegistered := true, ledgerEntry := true }
      else
        { s with pending := some (i + 1) }
  | .teardown => if s.pending = some 0 then { s with pending := none } else s
  | .marketsLoad => { s with marketsLoaded := true }

/-- Replay a sequence of poll events from the initial state. -/
def runPoll (events : List PollEvent) : PollState :=
  events.foldl pollStep pollInit

/-! ## Helper lemmas -/

theorem lastPriceOf_some_of_ne (l : ℚ) (h : l ≠ 0) : lastPriceOf (some l) = l := by
  simp [lastPriceOf, h]

theorem snapshotSide_foldl (p : ℚ) (raw : List (ℚ × ℚ)) (acc : List OrderBookOrders) :
    raw.foldl (fun acc2 e => if e.2 = 0 then acc2 else acc2 ++ [⟨e.1, multiply e.2 p, 0⟩]) acc =
      acc ++ (raw.filter (fun e => decide (e.2 ≠ 0))).map (fun e => ⟨e.1, multiply e.2 p, 0⟩) := by
  induction raw generalizing acc with
  | nil => simp
  | cons e es ih =>
    by_cases he : e.2 = 0
    · simp [List.foldl_cons, List.filter_cons, he, ih]
    · simp [List.foldl_cons, List.filter_cons, he, ih]

theorem mem_insertLevel (le : OrderBookOrders → OrderBookOrders → Bool)
    (x y : OrderBookOrders) (l : List OrderBookOrders) :
    y ∈ insertLevel le x l ↔ y = x ∨ y ∈ l := by
  induction l with
  | nil => simp [insertLevel]
  | cons z zs ih =>
    by_cases h : le x z
    · simp [insertLevel, h]
    · simp only [insertLevel, h, Bool.false_eq_true, if_false, List.mem_cons, ih]
      tauto

theorem mem_sortLevels (le : OrderBookOrders → OrderBookOrders → Bool)
    (y : OrderBookOrders) (l : List OrderBookOrders) :
    y ∈ sortLevels le l ↔ y ∈ l := by
  induction l with
  | nil => simp [sortLevels]
  | cons z zs ih =>
    simp only [sortLevels, List.foldr_cons] at *
    rw [mem_insertLevel, ih]
    simp

theorem calcTotals_price_mem (acc : ℚ) (l : List OrderBookOrders) (y : OrderBookOrders)
    (hy : y ∈ calcTotals acc l) : ∃ x ∈ l, y.price = x.price := by
  induction l generalizing acc with
  | nil => simp [calcTotals] at hy
  | cons z zs ih =>
    simp only [calcTotals, List.mem_cons] at hy
    rcases hy with h | h
    · exact ⟨z, List.mem_cons_self z zs, by rw [h]⟩
    · obtain ⟨x, hx, hp⟩ := ih _ h
      exact ⟨x, List.mem_cons_of_mem z hx, hp⟩

theorem getKey_setKey_self {α : Type} (k : String) (v : α) (l : List (String × α)) :
    getKey k (setKey k v l) = some v := by
  induction l with
  | nil => simp [setKey, getKey]
  | cons kv rest ih =>
    by_cases h : kv.1 = k
    · simp [setKey, getKey, h]
    · simp [setKey, getKey, h, ih]

theorem getKey_setKey_ne {α : Type} (k1 k2 : String) (v : α) (l : List (String × α))
    (h : k1 ≠ k2) : getKey k1 (setKey k2 v l) = getKey k1 l := by
  have hsym : ¬k2 = k1 := fun h2 => h h2.symm
  induction l with
  | nil => simp [setKey, getKey, hsym]
  | cons kv rest ih =>
    by_cases h2 : kv.1 = k2
    · simp [setKey, getKey, h2, hsym]
    · by_cases h3 : kv.1 = k1
      · simp [setKey, getKey, h2, h3, h]
      · simp [setKey, getKey, h2, h3, ih]

theorem getKey_eq_none_of_not_mem {α : Type} (k : String) (l : List (String × α))
    (h : k ∉ l.map Prod.fst) : getKey k l = none := by
  induction l with
  | nil => simp [getKey]
  | cons kv rest ih =>
    simp only [List.map_cons, List.mem_cons] at h
    push_neg at h
    have hne : ¬kv.1 = k := fun he => h.1 he.symm
    simp [getKey, hne, ih h.2]

theorem mem_keys_setKey {α : Type} (k k3 : String) (v : α) (l : List (String × α))
    (h : k3 ∈ (setKey k v l).map Prod.fst) : k3 = k ∨ k3 ∈ l.map Prod.fst := by
  induction l with
  | nil => simpa [setKey] using h
  | cons kv rest ih =>
    by_cases h2 : kv.1 = k
    · simp only [setKey, h2, if_true, List.map_cons, List.mem_cons] at h
      rcases h with h | h
      · exact Or.inl h
      · exact Or.inr (by simp [h])
    · simp only [setKey, h2, if_false, List.map_cons, List.mem_cons] at h
      rcases h with h | h
      · exact Or.inr (by simp [h])
      · rcases ih h with h3 | h3
        · exact Or.inl h3
        · exact Or.inr (by simp [h3])

theorem keysNodup_setKey {α : Type} (k : String) (v : α) (l : List (String × α))
    (h : keysNodup l) : keysNodup (setKey k v l) := by
  induction l with
  | nil => simp [keysNodup, setKey]
  | cons kv rest ih =>
    simp only [keysNodup, List.map_cons, List.nodup_cons] at h
    by_cases h2 : kv.1 = k
    · simp only [keysNodup, setKey, h2, if_true, List.map_cons, List.nodup_cons]
      exact ⟨by rw [← h2]; exact h.1, h.2⟩
    · simp only [keysNodup, setKey, h2, if_false, List.map_cons, List.nodup_cons]
      refine ⟨fun hmem => ?_, ih h.2⟩
      rcases mem_keys_setKey k kv.1 v rest hmem with h3 | h3
      · exact h2 h3
      · exact h.1 h3

theorem getKey_eraseKey_self {α : Type} (k : String) (l : List (String × α))
    (h : keysNodup l) : getKey k (eraseKey k l) = none := by
  induction l with
  | nil => simp [eraseKey, getKey]
  | cons kv rest ih =>
    simp only [keysNodup, List.map_cons, List.nodup_cons] at h
    by_cases h2 : kv.1 = k
    · simp only [eraseKey, h2, if_true]
      exact getKey_eq_none_of_not_mem k rest (by rw [← h2]; exact h.1)
    · simp [eraseKey, getKey, h2, ih h.2]

theorem countKey_eq_zero_of_not_mem {α : Type} (k : String) (l : List (String × α))
    (h : k ∉ l.map Prod.fst) : countKey k l = 0 := by
  induction l with
  | nil => simp [countKey]
  | cons kv rest ih =>
    simp only [List.map_cons, List.mem_cons] at h
    push_neg at h
    have hne : ¬kv.1 = k := fun he => h.1 he.symm
    simp only [countKey, List.filter_cons] at *
    simp [hne, ih h.2]

theorem countKey_setKey_one {α : Type} (k : String) (v : α) (l : List (String × α))
    (h : keysNodup l) : countKey k (setKey k v l) = 1 := by
  induction l with
  | nil => simp [countKey, setKey, List.filter_cons]
  | cons kv rest ih =>
    simp only [keysNodup, List.map_cons, List.nodup_cons] at h
    by_cases h2 : kv.1 = k
    · simp only [setKey, h2, if_true, countKey, List.filter_cons, if_pos rfl]
      have : countKey k rest = 0 :=
        countKey_eq_zero_of_not_mem k rest (by rw [← h2]; exact h.1)
      simp only [countKey] at this
      simp [this]
    · simp only [setKey, h2, if_false, countKey, List.filter_cons]
      have := ih h.2
      simp only [countKey] at this
      simp [h2, this]

/-! ## Claim theorems -/

/-- Claim C1: the update handler is claimed to process every (price,
amount) pair of a side.  Evaluating the embedded update loop at the
failing input shows otherwise: on the book with a single bid level at
price 100 and the update pairs (100, 0) then (99, 2) with precision
factor 1, the zero-amount pair deletes the level at 100 and the return
statement then exits the side's callback, so the nonzero pair (99, 2)
is never processed and no level at 99 is inserted; the side ends
empty, where the claim requires the book [(99, 2)]. -/
theorem updateSide_stops_after_delete :
    applyUpdateSide 1 [⟨100, 5, 5⟩] [(100, 0), (99, 2)] = [] ∧
    applyUpdateSide 1 [⟨100, 5, 5⟩] [(100, 0), (99, 2)] ≠ [⟨99, 2, 0⟩] := by
  decide

/-- Claim C4: a snapshot replaces a side wholesale, dropping
zero-amount entries and multiplying kept amounts by the precision
factor; and on the concrete scenario with precision 1, bids
[[100, 2], [99, 1]] and asks [[101, 3]] (last price 100, which filters
nothing), the delivered book is bids [(100, 2, 2), (99, 1, 3)] and
asks [(101, 3, 3)] with cumulative totals. -/
theorem snapshot_normalization :
    (∀ (p : ℚ) (raw : List (ℚ × ℚ)),
        snapshotSide p raw =
          (raw.filter (fun e => decide (e.2 ≠ 0))).map (fun e => ⟨e.1, multiply e.2 p, 0⟩)) ∧
    deliveredBook 1 (some 100) ⟨[], []⟩ (BookMessage.snapshot [(100, 2), (99, 1)] [(101, 3)]) =
      ⟨[⟨100, 2, 2⟩, ⟨99, 1, 3⟩], [⟨101, 3, 3⟩]⟩ := by
  constructor
  · intro p raw
    have h := snapshotSide_foldl p raw []
    simpa [snapshotSide] using h
  · norm_num [deliveredBook, calcOrderBookTotal, sortOrderBook, staleFilter, mergeMessage,
      snapshotSide, multiply, sortLevels, insertLevel, calcTotals, lastPriceOf]

/-- Claim C3: after every snapshot and every update is merged, with
last the most recently known ticker last price, the delivered book
satisfies: every ask price is at least last and every bid price is at
most last, whenever last is known and nonzero. -/
theorem post_merge_book_within_last (precision : ℚ) (t : Option ℚ) (last : ℚ)
    (ob : OrderBook) (msg : BookMessage) (hknown : t = some last) (hnz : last ≠ 0) :
    (∀ a ∈ (deliveredBook precision t ob msg).asks, last ≤ a.price) ∧
    (∀ b ∈ (deliveredBook precision t ob msg).bids, b.price ≤ last) := by
  subst hknown
  constructor
  · intro a ha
    simp only [deliveredBook, calcOrderBookTotal, sortOrderBook, staleFilter,
      lastPriceOf_some_of_ne last hnz] at ha
    obtain ⟨x, hx, hp⟩ := calcTotals_price_mem _ _ _ ha
    rw [mem_sortLevels] at hx
    have hfilter := (List.mem_filter.mp hx).2
    rw [hp]
    exact of_decide_eq_true hfilter
  · intro b hb
    simp only [deliveredBook, calcOrderBookTotal, sortOrderBook, staleFilter,
      lastPriceOf_some_of_ne last hnz] at hb
    obtain ⟨x, hx, hp⟩ := calcTotals_price_mem _ _ _ hb
    rw [mem_sortLevels] at hx
    have hfilter := (List.mem_filter.mp hx).2
    rw [hp]
    exact of_decide_eq_true hfilter

/-- Witness for post_merge_book_within_last at a concrete snapshot
with last price 100. -/
theorem post_merge_book_within_last_witness :
    (∀ a ∈ (deliveredBook 1 (some 100) ⟨[], []⟩
        (BookMessage.snapshot [(100, 2)] [(101, 3)])).asks, (100 : ℚ) ≤ a.price) ∧
    (∀ b ∈ (deliveredBook 1 (some 100) ⟨[], []⟩
        (BookMessage.snapshot [(100, 2)] [(101, 3)])).bids, b.price ≤ (100 : ℚ)) :=
  post_merge_book_within_last 1 (some 100) 100 ⟨[], []⟩
    (BookMessage.snapshot [(100, 2)] [(101, 3)]) rfl (by decide)

/-- Claim C5 counterexample: the claim says that with no known last
price the stale-quote filter leaves both sides unchanged; at the
concrete book with one bid at 100 and one ask at 101 and an unknown
last price the filter empties the bid side, so the book changes. -/
theorem stale_filter_unknown_last_cex :
    staleFilter (lastPriceOf none) ⟨[⟨100, 2, 2⟩], [⟨101, 3, 3⟩]⟩ ≠
      (⟨[⟨100, 2, 2⟩], [⟨101, 3, 3⟩]⟩ : OrderBook) ∧
    (staleFilter (lastPriceOf none) ⟨[⟨100, 2, 2⟩], [⟨101, 3, 3⟩]⟩).bids = [] := by
  decide

/-- Claim C5 as amended: when no last price is known the filter runs
with last price 0, which leaves the ask side unchanged whenever all
ask prices are nonnegative but removes every bid whose price is
positive, emptying the bid side of any real book. -/
theorem stale_filter_unknown_last (ob : OrderBook)
    (hask : ∀ a ∈ ob.asks, 0 ≤ a.price) (hbid : ∀ b ∈ ob.bids, 0 < b.price) :
    (staleFilter (lastPriceOf none) ob).asks = ob.asks ∧
    (staleFilter (lastPriceOf none) ob).bids = [] := by
  constructor
  · simp only [staleFilter, lastPriceOf]
    rw [List.filter_eq_self]
    intro a ha
    exact decide_eq_true (hask a ha)
  · simp only [staleFilter, lastPriceOf]
    rw [List.filter_eq_nil_iff]
    intro b hb
    simp only [decide_eq_true_eq, not_le]
    exact hbid b hb

/-- Witness for stale_filter_unknown_last at a one-level-per-side
book. -/
theorem stale_filter_unknown_last_witness :
    (staleFilter (lastPriceOf none) ⟨[⟨100, 2, 2⟩], [⟨101, 3, 3⟩]⟩).asks =
      (⟨[⟨100, 2, 2⟩], [⟨101, 3, 3⟩]⟩ : OrderBook).asks ∧
    (staleFilter (lastPriceOf none) ⟨[⟨100, 2, 2⟩], [⟨101, 3, 3⟩]⟩).bids = [] :=
  stale_filter_unknown_last ⟨[⟨100, 2, 2⟩], [⟨101, 3, 3⟩]⟩ (by decide) (by decide)

/-- Claim C2 counterexample: the claim says the canonical string uses
the url-decoded *sorted* query string.  With params given in the key
order b then a, the interceptor signs over the insertion-order query
string b=1&a=2, while the sorted query string is a=2&b=1, and under
the (injective) concrete hash stand-ins the resulting SIGN values
differ, so the claim fails at this input. -/
theorem sign_query_not_sorted_cex :
    requestInterceptor shaT hmacT cexOpts 5 cexCfg =
      Except.ok ⟨some "/futures/usdt/orders", some "get", some cexParams, none, some 5000,
        [("KEY", some "k"),
         ("SIGN", some (hmacT "s3"
           (specCanonicalString shaT "GET" "/futures/usdt/orders" "b=1&a=2" none 5))),
         ("Timestamp", some "5")]⟩ ∧
    urlDecodedQueryString (some cexParams) = "b=1&a=2" ∧
    sortedQueryString cexParams = "a=2&b=1" ∧
    hmacT "s3" (specCanonicalString shaT "GET" "/futures/usdt/orders" "b=1&a=2" none 5) ≠
      hmacT "s3" (specCanonicalString shaT "GET" "/futures/usdt/orders"
        (sortedQueryString cexParams) none 5) := by
  have e1 : hmacT "s3"
      (specCanonicalString shaT "GET" "/futures/usdt/orders" "b=1&a=2" none 5) =
      "hmac[s3|GET\n/api/v4/futures/usdt/orders\nb=1&a=2\nsha[]\n5]" := rfl
  have e2 : hmacT "s3" (specCanonicalString shaT "GET" "/futures/usdt/orders"
      (sortedQueryString cexParams) none 5) =
      "hmac[s3|GET\n/api/v4/futures/usdt/orders\na=2&b=1\nsha[]\n5]" := rfl
  refine ⟨rfl, rfl, rfl, ?_⟩
  rw [e1, e2]
  decide

/-- Claim C2 as amended: for every non-public request the interceptor
emits headers KEY (the api key), SIGN (the hmac-sha512 of the
canonical string METHOD, /api/v4 plus the path, the url-decoded query
string in the params' own key order (not sorted), the sha512 of the
body text or of the empty string, and the unix-seconds timestamp,
joined by newlines, under the secret) and Timestamp, and sets the
timeout to the receive window. -/
theorem sign_canonical_headers (sha : String → String) (hmac : String → String → String)
    (key : Option String) (sec : String) (testnet : Bool) (cors : Option String)
    (recvW : Option Nat) (ts : Nat) (path m : String)
    (params : Option (List (String × String))) (body : Option String)
    (tmo : Option Nat) (hdrs : List (String × Option String))
    (hpub : PUBLIC_ENDPOINTS.any (fun s => strStartsWith path s) = false)
    (hm : ¬toUpperStr m = "") :
    requestInterceptor sha hmac ⟨key, some sec, testnet, cors, recvW⟩ ts
        ⟨some path, some m, params, body, tmo, hdrs⟩ =
      Except.ok ⟨some path, some m, params, body, some (recvW.getD RECV_WINDOW),
        hdrs ++
          [("KEY", key),
           ("SIGN", some (hmac sec (specCanonicalString sha (toUpperStr m) path
               (urlDecodedQueryString params) body ts))),
           ("Timestamp", some (toString ts))]⟩ := by
  simp [requestInterceptor, specCanonicalString, hpub, hm]

/-- Witness for sign_canonical_headers at a concrete private request
with params, discharging the non-public and nonempty-method
hypotheses. -/
theorem sign_canonical_headers_witness :
    requestInterceptor shaT hmacT ⟨some "k", some "s3", false, none, none⟩ 5
        ⟨some "/futures/usdt/orders", some "get", some cexParams, none, none, []⟩ =
      Except.ok ⟨some "/futures/usdt/orders", some "get", some cexParams, none,
        some (Option.getD none RECV_WINDOW),
        [] ++
          [("KEY", some "k"),
           ("SIGN", some (hmacT "s3" (specCanonicalString shaT (toUpperStr "get")
               "/futures/usdt/orders" (urlDecodedQueryString (some cexParams)) none 5))),
           ("Timestamp", some (toString 5))]⟩ :=
  sign_canonical_headers shaT hmacT (some "k") "s3" false none none 5
    "/futures/usdt/orders" "get" (some cexParams) none none [] (by decide) (by decide)

/-- Claim C8: a request whose url starts with one of the public
endpoint prefixes passes through the interceptor unchanged, with no
headers added and no timeout set; a non-public request (with the
secret present, as signing requires) gets its timeout set to the
configured receive window, defaulting to RECV_WINDOW. -/
theorem interceptor_public_bypass (sha : String → String)
    (hmac : String → String → String) (opts : ExchangeOptions) (ts : Nat)
    (cfg : RequestConfig) :
    (PUBLIC_ENDPOINTS.any (fun s => strStartsWith (cfg.url.getD "") s) = true →
      requestInterceptor sha hmac opts ts cfg = Except.ok cfg) ∧
    (PUBLIC_ENDPOINTS.any (fun s => strStartsWith (cfg.url.getD "") s) = false →
      ∀ sec, opts.secret = some sec →
      (requestInterceptor sha hmac opts ts cfg).map (fun c => c.timeout) =
        Except.ok (some (opts.recvWindow.getD RECV_WINDOW))) := by
  constructor
  · intro h
    simp [requestInterceptor, h]
  · intro h sec hsec
    simp [requestInterceptor, h, hsec, Except.map]

/-- Witness for interceptor_public_bypass: a tickers request passes
through unchanged, and a private orders request gets the default
timeout. -/
theorem interceptor_public_bypass_witness :
    requestInterceptor shaT hmacT cexOpts 7
        ⟨some "/futures/usdt/tickers", none, none, none, none, []⟩ =
      Except.ok ⟨some "/futures/usdt/tickers", none, none, none, none, []⟩ ∧
    (requestInterceptor shaT hmacT cexOpts 7 cexCfg).map (fun c => c.timeout) =
      Except.ok (some (Option.getD none RECV_WINDOW)) :=
  ⟨(interceptor_public_bypass shaT hmacT cexOpts 7
      ⟨some "/futures/usdt/tickers", none, none, none, none, []⟩).1 (by decide),
   (interceptor_public_bypass shaT hmacT cexOpts 7 cexCfg).2 (by decide) "s3" rfl⟩

/-- Claim C9 counterexample: the claim says constructing the client
with missing credentials fails at construction time with a
configuration error; createAPI with both credentials absent succeeds
(it performs no credential validation), so the claim fails at this
input. -/
theorem createAPI_no_construction_check_cex :
    createAPI ⟨none, none, false, none, none⟩ = Except.ok ⟨BASE_URL_livenet, 3⟩ ∧
    (createAPI ⟨none, none, false, none, none⟩).isOk = true ∧
    createAPI ⟨none, none, false, none, none⟩ ≠
      Except.error ConfigError.missingCredentials := by
  refine ⟨rfl, rfl, ?_⟩
  intro h
  simp [createAPI] at h

/-- Claim C9 as amended: createAPI never fails at construction,
whatever the credentials; the absence of the secret surfaces only
per-request, when the interceptor signs a non-public request. -/
theorem createAPI_credentials_surface_per_request (opts : ExchangeOptions) :
    (createAPI opts).isOk = true ∧
    (∀ (sha : String → String) (hmac : String → String → String) (ts : Nat)
        (cfg : RequestConfig),
      PUBLIC_ENDPOINTS.any (fun s => strStartsWith (cfg.url.getD "") s) = false →
      opts.secret = none →
      requestInterceptor sha hmac opts ts cfg = Except.error SignError.missingSecret) := by
  constructor
  · rfl
  · intro sha hmac ts cfg h hsec
    simp [requestInterceptor, h, hsec]

/-- Witness for createAPI_credentials_surface_per_request at options
with no credentials and a concrete private request. -/
theorem createAPI_credentials_surface_per_request_witness :
    (createAPI ⟨none, none, false, none, none⟩).isOk = true ∧
    requestInterceptor shaT hmacT ⟨none, none, false, none, none⟩ 5 cexCfg =
      Except.error SignError.missingSecret :=
  ⟨(createAPI_credentials_surface_per_request ⟨none, none, false, none, none⟩).1,
   (createAPI_credentials_surface_per_request ⟨none, none, false, none, none⟩).2
     shaT hmacT 5 cexCfg (by decide) rfl⟩

/-- Claim C6: the claim says the teardown returned by a
subscription made before markets load cancels the pending retry at any
point, so no handler or ledger entry is ever created afterwards.
Replaying the poll model refutes it: after the first retry fires while
markets are still unloaded, a teardown leaves the re-armed retry timer
pending (the caller's teardown clears only the first timer), and once
markets load the pending retry registers the handler and ledger entry.
A teardown issued before the first retry fires does cancel the
chain. -/
theorem deferred_retry_teardown_leak :
    (runPoll [PollEvent.timerFires, PollEvent.teardown]).pending = some 1 ∧
    (runPoll [PollEvent.timerFires, PollEvent.teardown, PollEvent.marketsLoad,
        PollEvent.timerFires]).handlerRegistered = true ∧
    (runPoll [PollEvent.timerFires, PollEvent.teardown, PollEvent.marketsLoad,
        PollEvent.timerFires]).ledgerEntry = true ∧
    (runPoll [PollEvent.teardown, PollEvent.marketsLoad,
        PollEvent.timerFires]).handlerRegistered = false := by
  decide

/-- Claim C7 counterexample: the claim says subscribing a new candle
interval unsubscribes the prior interval's topic first; after
subscribing interval 1m and then interval 5m on the same session, the
1m handler and ledger entry are still present, the frames sent are the
two subscribes, and no unsubscribe frame for the 1m topic was ever
sent. -/
theorem ohlcv_no_auto_unsubscribe_cex :
    getKey (candleTopic "1m" "X")
      (subscribeOHLCV "5m" "X" 2 (subscribeOHLCV "1m" "X" 1 initSession)).handlers = some 1 ∧
    getKey (candleTopic "1m" "X")
      (subscribeOHLCV "5m" "X" 2 (subscribeOHLCV "1m" "X" 1 initSession)).topics =
        some (candleTopic "1m" "X") ∧
    (subscribeOHLCV "5m" "X" 2 (subscribeOHLCV "1m" "X" 1 initSession)).frames =
      [("subscribe", candleTopic "1m" "X"), ("subscribe", candleTopic "5m" "X")] ∧
    ("unsubscribe", candleTopic "1m" "X") ∉
      (subscribeOHLCV "5m" "X" 2 (subscribeOHLCV "1m" "X" 1 initSession)).frames := by
  decide

/-- Claim C7 as amended: subscribing a new interval while another is
active does not unsubscribe the prior topic; it only appends a
subscribe frame for the new topic and leaves the prior handler and
ledger entry registered under their own key, so candle topics
accumulate; a topic is unsubscribed and removed only by its own
teardown. -/
theorem ohlcv_topics_additive (s : WsSession) (i1 i2 instId : String) (h1 h2 : Nat)
    (hne : candleTopic i1 instId ≠ candleTopic i2 instId)
    (hs : keysNodup s.handlers) :
    getKey (candleTopic i1 instId)
      (subscribeOHLCV i2 instId h2 (subscribeOHLCV i1 instId h1 s)).handlers = some h1 ∧
    getKey (candleTopic i1 instId)
      (subscribeOHLCV i2 instId h2 (subscribeOHLCV i1 instId h1 s)).topics =
        some (candleTopic i1 instId) ∧
    (subscribeOHLCV i2 instId h2 (subscribeOHLCV i1 instId h1 s)).frames =
      s.frames ++ [("subscribe", candleTopic i1 instId), ("subscribe", candleTopic i2 instId)] ∧
    getKey (candleTopic i1 instId)
      (teardownOHLCV i1 instId
        (subscribeOHLCV i2 instId h2 (subscribeOHLCV i1 instId h1 s))).handlers = none ∧
    (teardownOHLCV i1 instId
        (subscribeOHLCV i2 instId h2 (subscribeOHLCV i1 instId h1 s))).frames =
      s.frames ++ [("subscribe", candleTopic i1 instId), ("subscribe", candleTopic i2 instId),
        ("unsubscribe", candleTopic i1 instId)] := by
  refine ⟨?_, ?_, ?_, ?_, ?_⟩
  · simp only [subscribeOHLCV]
    rw [getKey_setKey_ne _ _ _ _ hne, getKey_setKey_self]
  · simp only [subscribeOHLCV]
    rw [getKey_setKey_ne _ _ _ _ hne, getKey_setKey_self]
  · simp [subscribeOHLCV]
  · simp only [subscribeOHLCV, teardownOHLCV]
    exact getKey_eraseKey_self _ _
      (keysNodup_setKey _ _ _ (keysNodup_setKey _ _ _ hs))
  · simp [subscribeOHLCV, teardownOHLCV]

/-- Witness for ohlcv_topics_additive at intervals 1m and 5m starting
from the empty session. -/
theorem ohlcv_topics_additive_witness :
    getKey (candleTopic "1m" "X")
      (subscribeOHLCV "5m" "X" 2 (subscribeOHLCV "1m" "X" 1 initSession)).handlers = some 1 ∧
    getKey (candleTopic "1m" "X")
      (subscribeOHLCV "5m" "X" 2 (subscribeOHLCV "1m" "X" 1 initSession)).topics =
        some (candleTopic "1m" "X") ∧
    (subscribeOHLCV "5m" "X" 2 (subscribeOHLCV "1m" "X" 1 initSession)).frames =
      initSession.frames ++
        [("subscribe", candleTopic "1m" "X"), ("subscribe", candleTopic "5m" "X")] ∧
    getKey (candleTopic "1m" "X")
      (teardownOHLCV "1m" "X"
        (subscribeOHLCV "5m" "X" 2 (subscribeOHLCV "1m" "X" 1 initSession))).handlers = none ∧
    (teardownOHLCV "1m" "X"
        (subscribeOHLCV "5m" "X" 2 (subscribeOHLCV "1m" "X" 1 initSession))).frames =
      initSession.frames ++
        [("subscribe", candleTopic "1m" "X"), ("subscribe", candleTopic "5m" "X"),
         ("unsubscribe", candleTopic "1m" "X")] :=
  ohlcv_topics_additive initSession "1m" "5m" "X" 1 2 (by decide)
    (by simp [keysNodup, initSession])

/-- Claim C10: listenOrderBook registers its handler under the fixed
key books and its ledger entry under the fixed key orderBook
regardless of symbol, so a second subscription on the same session
replaces the first one's handler and ledger entry, the session holds
exactly one books handler binding, and running either returned
teardown removes the shared books handler and orderBook ledger
entry. -/
theorem orderBook_single_subscription_keys (s : WsSession) (h1 h2 : Nat)
    (id1 id2 : String) (hs : keysNodup s.handlers) (ht : keysNodup s.topics) :
    getKey "books" (subscribeOrderBook id2 h2 (subscribeOrderBook id1 h1 s)).handlers =
      some h2 ∧
    getKey "orderBook" (subscribeOrderBook id2 h2 (subscribeOrderBook id1 h1 s)).topics =
      some (booksTopic id2) ∧
    countKey "books" (subscribeOrderBook id2 h2 (subscribeOrderBook id1 h1 s)).handlers = 1 ∧
    getKey "books" (teardownOrderBook id1
      (subscribeOrderBook id2 h2 (subscribeOrderBook id1 h1 s))).handlers = none ∧
    getKey "orderBook" (teardownOrderBook id1
      (subscribeOrderBook id2 h2 (subscribeOrderBook id1 h1 s))).topics = none ∧
    getKey "books" (teardownOrderBook id2
      (subscribeOrderBook id2 h2 (subscribeOrderBook id1 h1 s))).handlers = none ∧
    getKey "orderBook" (teardownOrderBook id2
      (subscribeOrderBook id2 h2 (subscribeOrderBook id1 h1 s))).topics = none := by
  have hs2 : keysNodup (setKey "books" h2 (setKey "books" h1 s.handlers)) :=
    keysNodup_setKey _ _ _ (keysNodup_setKey _ _ _ hs)
  have ht2 : keysNodup (setKey "orderBook" (booksTopic id2)
      (setKey "orderBook" (booksTopic id1) s.topics)) :=
    keysNodup_setKey _ _ _ (keysNodup_setKey _ _ _ ht)
  refine ⟨?_, ?_, ?_, ?_, ?_, ?_, ?_⟩
  · simp only [subscribeOrderBook]
    exact getKey_setKey_self _ _ _
  · simp only [subscribeOrderBook]
    exact getKey_setKey_self _ _ _
  · simp only [subscribeOrderBook]
    exact countKey_setKey_one _ _ _ (keysNodup_setKey _ _ _ hs)
  · simp only [subscribeOrderBook, teardownOrderBook]
    exact getKey_eraseKey_self _ _ hs2
  · simp only [subscribeOrderBook, teardownOrderBook]
    exact getKey_eraseKey_self _ _ ht2
  · simp only [subscribeOrderBook, teardownOrderBook]
    exact getKey_eraseKey_self _ _ hs2
  · simp only [subscribeOrderBook, teardownOrderBook]
    exact getKey_eraseKey_self _ _ ht2

/-- Witness for orderBook_single_subscription_keys at two concrete
symbols starting from the empty session. -/
theorem orderBook_single_subscription_keys_witness :
    getKey "books" (subscribeOrderBook "B" 2 (subscribeOrderBook "A" 1 initSession)).handlers =
      some 2 ∧
    getKey "orderBook" (subscribeOrderBook "B" 2 (subscribeOrderBook "A" 1 initSession)).topics =
      some (booksTopic "B") ∧
    countKey "books" (subscribeOrderBook "B" 2 (subscribeOrderBook "A" 1 initSession)).handlers = 1 ∧
    getKey "books" (teardownOrderBook "A"
      (subscribeOrderBook "B" 2 (subscribeOrderBook "A" 1 initSession))).handlers = none ∧
    getKey "orderBook" (teardownOrderBook "A"
      (subscribeOrderBook "B" 2 (subscribeOrderBook "A" 1 initSession))).topics = none ∧
    getKey "books" (teardownOrderBook "B"
      (subscribeOrderBook "B" 2 (subscribeOrderBook "A" 1 initSession))).handlers = none ∧
    getKey "orderBook" (teardownOrderBook "B"
      (subscribeOrderBook "B" 2 (subscribeOrderBook "A" 1 initSession))).topics = none :=
  orderBook_single_subscription_keys initSession 1 2 "A" "B"
    (by simp [keysNodup, initSession]) (by simp [keysNodup, initSession])
